import Mathlib

/-!
A shallow embedding of `tmplmgr.go` (package tmplmgr), a caching and
composition layer over Go's `html/template` engine.

The underlying templating engine (`html/template`) is abstracted as an
`Engine` structure supplying the primitive operations the wrapper invokes
(`ParseFiles`, `Funcs`, `ParseGlob`, `Clone`, `Execute`).  Compiled template
handles are an abstract type `H`; registered callables are an abstract type
`F`.  Potentially-nil Go pointers are `Option H`; operations whose Go
counterparts can dereference a nil pointer return `GoResult`, whose `fault`
constructor records an uncatchable nil-pointer runtime fault, as opposed to
`err`, a normal returned `error` value.
-/

namespace Tmplmgr

/-- The outcome of an operation in the Go code: a normal value, a returned
`error`, or an unrecovered runtime fault (nil-pointer dereference). -/
inductive GoResult (α : Type) where
  | ok (a : α)
  | err (e : String)
  | fault (msg : String)
deriving DecidableEq, Repr

/-- `type Mode bool` from the source. -/
abbrev Mode := Bool

/-- `Development Mode = true` from the source. -/
def Development : Mode := true

/-- `Production Mode = false` from the source. -/
def Production : Mode := false

/-- The operations of the underlying `html/template` engine, abstracted.
`parseFiles` models `template.New(filepath.Base(file))` + `Delims` +
`ParseFiles(file)` on the base path; `funcsPanic` reports the panic message
of `Funcs` when the function map is invalid (Go's `Funcs` panics on a value
that is not a function of acceptable signature); `addFuncs` is the effect of
a non-panicking `Funcs`; `parseGlob` models `ParseGlob` on a non-nil
receiver; `parseGlobNil` models `ParseGlob` on a nil receiver, which is
nil-safe: `checkCanParse` returns nil for a nil template and `parseFiles`
creates the template from the first matched file, so it yields a fresh
template built only from the glob's files or a normal error (e.g. the
pattern matches no files); `clone` models `Clone` (which in Go returns
`(nil, err)` on failure); `render` models
`(*template.Template).Execute(w, ctx)` on a non-nil handle for the fixed
writer and context of the call. -/
structure Engine (H F : Type) where
  parseFiles : String → Except String H
  funcsPanic : List (String × F) → Option String
  addFuncs : H → List (String × F) → H
  parseGlob : H → String → Except String H
  parseGlobNil : String → Except String H
  clone : H → Except String H
  render : H → Except String Unit

/-- The `Template` struct from the source: `t` is the compiled base pointer
(nil ↔ `none`), `dirty`, `base`, `funcs` (the function map, as an
association list), `blocks` (the registered glob patterns, in order), and
`compiled` (the per-call cache `map[string]*template.Template`; values are
`Option H` since a Go map can hold nil pointers).  The mutex carries no
sequential meaning and is omitted. -/
structure Template (H F : Type) where
  t : Option H
  dirty : Bool
  base : String
  funcs : List (String × F)
  blocks : List String
  compiled : List (String × Option H)
deriving DecidableEq, Repr

variable {H F : Type}

/-- Lookup in the per-call cache map (first binding wins, as later
`insertCache` conses the fresh binding at the front). -/
def lookupCache (c : List (String × Option H)) (k : String) : Option (Option H) :=
  match c.find? (fun p => p.1 = k) with
  | some p => some p.2
  | none => none

/-- `t.compiled[key] = tmpl`: overwrite-or-insert into the cache map. -/
def insertCache (c : List (String × Option H)) (k : String) (v : Option H) :
    List (String × Option H) :=
  (k, v) :: c

/-- `t.funcs[name] = fnc`: overwrite-or-insert into the function map. -/
def setFunc (l : List (String × F)) (name : String) (f : F) : List (String × F) :=
  (name, f) :: l.filter (fun p => p.1 ≠ name)

/-- `Parse(file)` from the source: a fresh `Template` with the zero value
`false` for `dirty`, nil compiled base, empty function map, no blocks, and
an empty per-call cache. -/
def Parse (file : String) : Template H F :=
  { t := none, dirty := false, base := file, funcs := [], blocks := [], compiled := [] }

/-- `(*Template).Blocks(globs...)`: append the globs and set `dirty`. -/
def Blocks (s : Template H F) (globs : List String) : Template H F :=
  { s with blocks := s.blocks ++ globs, dirty := true }

/-- `(*Template).Call(name, fnc)`: bind the function and set `dirty`. -/
def Call (s : Template H F) (name : String) (f : F) : Template H F :=
  { s with funcs := setFunc s.funcs name f, dirty := true }

/-- The `for _, glob := range ... { tmpl, err = tmpl.ParseGlob(glob) }` loop:
fold `parseGlob` over the globs, stopping at the first error. -/
def parseGlobList (e : Engine H F) : H → List String → Except String H
  | h, [] => .ok h
  | h, g :: gs =>
    match e.parseGlob h g with
    | .error msg => .error msg
    | .ok h2 => parseGlobList e h2 gs

/-- The pure computation performed by `Compile` to build the new base
handle: parse the base file, bind the function map (a panic from `Funcs` is
recovered into a returned error, per the `defer`/`recover` in the source),
then parse each registered block glob in order. -/
def compileResult (e : Engine H F) (s : Template H F) : Except String H :=
  match e.parseFiles s.base with
  | .error msg => .error msg
  | .ok tmpl0 =>
    match e.funcsPanic s.funcs with
    | some p => .error p
    | none => parseGlobList e (e.addFuncs tmpl0 s.funcs) s.blocks

/-- `(*Template).Compile()`: on success store the new handle, clear `dirty`
and reset the per-call cache to an empty map; on any failure return the
error leaving the state untouched (the locally built `tmpl` is discarded). -/
def Compile (e : Engine H F) (s : Template H F) : Template H F × Option String :=
  match compileResult e s with
  | .error msg => (s, some msg)
  | .ok h => ({ s with t := some h, dirty := false, compiled := [] }, none)

/-- `strings.Join(globs, ",")` from the source: the per-call cache key. -/
def joinComma : List String → String
  | [] => ""
  | [g] => g
  | g :: gs => g ++ "," ++ joinComma gs

/-- The same `ParseGlob` loop starting from a possibly-nil handle (as left
by `tmpl, _ = t.t.Clone()` when `Clone` failed): a nil receiver is handled
by the engine's nil-safe `ParseGlob`, whose fresh template then feeds the
rest of the loop. -/
def parseGlobListOpt (e : Engine H F) : Option H → List String → Except String (Option H)
  | h?, [] => .ok h?
  | none, g :: gs =>
    match e.parseGlobNil g with
    | .error msg => .error msg
    | .ok h2 => parseGlobListOpt e (some h2) gs
  | some h, g :: gs =>
    match e.parseGlob h g with
    | .error msg => .error msg
    | .ok h2 => parseGlobListOpt e (some h2) gs

/-- `joinComma` at the character-list level, used to reason about which
glob lists share a cache key. -/
def joinCommaL : List (List Char) → List Char
  | [] => []
  | [g] => g
  | g :: gs => g ++ ',' :: joinCommaL gs

/-- The cache-miss path of `getCachedGlobs`: `tmpl, _ = t.t.Clone()` (Clone
on a nil base pointer is a nil dereference; a Clone error is discarded,
leaving `tmpl` nil, and the glob loop then runs on the nil handle through
the engine's nil-safe `ParseGlob`, building a template from scratch or
returning a normal error), then parse each per-call glob in order, and on
success store the resulting handle under `key`. -/
def freshCompose (e : Engine H F) (s : Template H F) (globs : List String) (key : String) :
    Template H F × GoResult (Option H) :=
  match s.t with
  | none => (s, .fault "nil pointer dereference: Clone on nil template")
  | some h =>
    match e.clone h with
    | .error _ =>
      match parseGlobListOpt e none globs with
      | .error msg => (s, .err msg)
      | .ok h? => ({ s with compiled := insertCache s.compiled key h? }, .ok h?)
    | .ok h0 =>
      match parseGlobList e h0 globs with
      | .error msg => (s, .err msg)
      | .ok hN =>
        ({ s with compiled := insertCache s.compiled key (some hN) }, .ok (some hN))

/-- `(*Template).getCachedGlobs(globs)`: compute the key, serve the cached
handle only when it exists and the mode is Production, otherwise build a
fresh composition. -/
def getCachedGlobs (e : Engine H F) (mode : Mode) (s : Template H F) (globs : List String) :
    Template H F × GoResult (Option H) :=
  match lookupCache s.compiled (joinComma globs) with
  | some cached =>
    if mode = Production then (s, .ok cached) else freshCompose e s globs (joinComma globs)
  | none => freshCompose e s globs (joinComma globs)

/-- Lift the engine's `render` to a `GoResult`. -/
def renderResult (r : Except String Unit) : GoResult Unit :=
  match r with
  | .ok _ => .ok ()
  | .error msg => .err msg

/-- `(*Template).Execute(w, ctx, globs...)`: compile first when `dirty` or
in Development mode (propagating a compile error without executing); then
resolve the handle — through `getCachedGlobs` when per-call globs were
passed, else the stored base (whose nil dereference by
`(*template.Template).Execute` is a fault) — and render it. -/
def Execute (e : Engine H F) (mode : Mode) (s : Template H F) (globs : List String) :
    Template H F × GoResult Unit :=
  let step1 : Template H F × Option String :=
    if s.dirty = true ∨ mode = Development then Compile e s else (s, none)
  match step1 with
  | (s1, some msg) => (s1, .err msg)
  | (s1, none) =>
    match globs with
    | [] =>
      match s1.t with
      | none => (s1, .fault "nil pointer dereference: Execute on nil template")
      | some h => (s1, renderResult (e.render h))
    | _ :: _ =>
      match getCachedGlobs e mode s1 globs with
      | (s2, .fault msg) => (s2, .fault msg)
      | (s2, .err msg) => (s2, .err msg)
      | (s2, .ok none) => (s2, .fault "nil pointer dereference: Execute on nil template")
      | (s2, .ok (some h)) => (s2, renderResult (e.render h))

/-! Concrete instantiations of the engine, used to evaluate the model on
concrete inputs.  Handles are `Nat`; a callable is a `Bool` recording
whether its signature is acceptable to the engine's function table. -/

/-- A well-behaved engine: the base file parses, `Funcs` panics exactly when
some registered callable is invalid, a glob named "bad/*" fails to parse,
everything else succeeds deterministically. -/
def okEngine : Engine Nat Bool :=
  { parseFiles := fun _ => .ok 1
    funcsPanic := fun l =>
      if l.all (fun p => p.2) then none else some "reflect: bad function signature"
    addFuncs := fun h _ => h + 10
    parseGlob := fun h g => if g = "bad/*" then .error "pattern matches no files" else .ok (h * 2)
    parseGlobNil := fun g =>
      if g = "bad/*" then .error "pattern matches no files" else .ok 1000
    clone := fun h => .ok (h + 100)
    render := fun _ => .ok () }

/-- An engine whose base file is missing: `ParseFiles` fails. -/
def badBaseEngine : Engine Nat Bool :=
  { okEngine with parseFiles := fun _ => .error "no such file or directory" }

/-- An engine whose `Clone` fails (in Go, e.g. after the template has
already executed), returning a nil handle together with the error. -/
def badCloneEngine : Engine Nat Bool :=
  { okEngine with clone := fun _ => .error "cannot Clone after it has executed" }

/-- A concrete dirty manager used to evaluate the model: the state after
`Parse("b").Blocks("g/*")`. -/
def sBlocksB : Template Nat Bool := Blocks (Parse "b") ["g/*"]

/-- A concrete manager with a previously compiled base and a non-empty
per-call cache, still dirty from a later `Blocks` call. -/
def sStale : Template Nat Bool :=
  { sBlocksB with t := some 7, compiled := [("old", some 5)] }

/-- A concrete clean manager whose per-call cache holds an entry under the
key "a,b". -/
def sCached : Template Nat Bool :=
  { (Parse "base" : Template Nat Bool) with t := some 1, compiled := [("a,b", some 42)] }

/-- The state after `Parse("b").Call("f", valid)`: dirty, with one valid
registered callable. -/
def sCallF : Template Nat Bool := Call (Parse "b") "f" true

/-- The state after `Parse("b").Call("f", invalid)`: dirty, with one
callable whose signature the engine's function table rejects. -/
def sCallBad : Template Nat Bool := Call (Parse "b") "f" false

/-- The state `sCached` after a fresh per-call composition for the glob
list ["a","b"] under `okEngine` stored its clone (handle 404). -/
def sFresh : Template Nat Bool :=
  { sCached with compiled := [("a,b", some 404), ("a,b", some 42)] }

/-- A clean manager: previously compiled successfully (`dirty = false`,
base handle stored), no pending registrations. -/
def sCleanBase : Template Nat Bool := { (Parse "b" : Template Nat Bool) with t := some 3 }

end Tmplmgr

namespace Tmplmgr

variable {H F : Type}

/-- C1: the claim says that `dirty == false` implies the compiled base is
present, that immediately after `Parse` the state counts as needing
compilation, and that an `Execute` in Production mode never dereferences an
absent compiled base.  The code contradicts this (and its own doc comments):
`Parse` leaves `dirty = false` with a nil compiled base, so the very first
`Execute` in Production mode skips `Compile` and dereferences the nil base
handle — a runtime fault, not a compile. -/
theorem parse_then_production_execute_faults :
    (Parse "base.tmpl" : Template Nat Bool).dirty = false ∧
    (Parse "base.tmpl" : Template Nat Bool).t = none ∧
    Execute okEngine Production (Parse "base.tmpl") [] =
      (Parse "base.tmpl", .fault "nil pointer dereference: Execute on nil template") :=
  ⟨rfl, rfl, rfl⟩

/-- C3 counterexample: the claim says the dirty flag "remains true (or
becomes true)" after any failed `Compile`, but a failed `Compile` on a
clean manager — previously compiled, `dirty` false, base file since gone —
leaves `dirty` false: the flag never becomes true, so a later
Production-mode `Execute` would not retry the compilation. -/
theorem compile_failure_on_clean_manager_dirty_stays_false :
    sCleanBase.dirty = false ∧
    Compile badBaseEngine sCleanBase = (sCleanBase, some "no such file or directory") ∧
    ¬ (Compile badBaseEngine sCleanBase).1.dirty = true :=
  ⟨by decide, by decide, by decide⟩

/-- C3 amended: a failed `Compile` — whether the base parse, the function
binding, or a block-glob parse failed — returns the error and leaves the
state entirely unchanged: the dirty flag keeps its prior value (in
particular it remains true when the manager was dirty, so a subsequent
call retries), and the previously stored compiled base handle and per-call
cache are untouched by the failed attempt. -/
theorem compile_failure_leaves_state_unchanged (e : Engine H F) (s s' : Template H F)
    (msg : String) (hfail : Compile e s = (s', some msg)) :
    s' = s ∧ (s.dirty = true → s'.dirty = true) ∧ s'.t = s.t ∧ s'.compiled = s.compiled := by
  have hs : s' = s := by
    unfold Compile at hfail
    cases hc : compileResult e s with
    | error m => rw [hc] at hfail; exact (Prod.mk.injEq .. ▸ hfail).1.symm
    | ok h => rw [hc] at hfail; exact absurd (Prod.mk.injEq .. ▸ hfail).2 (by simp)
  subst hs
  exact ⟨rfl, fun h => h, rfl, rfl⟩

/-- Witness for C3 at a concrete input: a dirty manager whose base file
fails to parse; `Compile` returns the error and preserves the state. -/
theorem compile_failure_leaves_state_unchanged_witness :
    Compile badBaseEngine sBlocksB = (sBlocksB, some "no such file or directory") ∧
    (sBlocksB = sBlocksB ∧ (sBlocksB.dirty = true → sBlocksB.dirty = true) ∧
      sBlocksB.t = sBlocksB.t ∧ sBlocksB.compiled = sBlocksB.compiled) :=
  ⟨by decide,
    compile_failure_leaves_state_unchanged badBaseEngine sBlocksB sBlocksB
      "no such file or directory" (by decide)⟩

/-- C5: a successful `Compile` stores the newly built handle as the
compiled base, sets `dirty` to false, and replaces the entire per-call
cache with an empty map. -/
theorem compile_success_installs_base_and_clears_cache (e : Engine H F)
    (s s' : Template H F) (hok : Compile e s = (s', none)) :
    s'.dirty = false ∧ s'.compiled = [] ∧
    ∃ h, compileResult e s = .ok h ∧ s'.t = some h ∧
      s' = { s with t := some h, dirty := false, compiled := [] } := by
  unfold Compile at hok
  cases hc : compileResult e s with
  | error m => rw [hc] at hok; exact absurd (Prod.mk.injEq .. ▸ hok).2 (by simp)
  | ok h =>
    rw [hc] at hok
    have hs := (Prod.mk.injEq .. ▸ hok).1
    subst hs
    exact ⟨rfl, rfl, h, rfl, rfl, rfl⟩

/-- Witness for C5 at a concrete input: a manager with a stale base and a
non-empty per-call cache; after a successful `Compile` the new handle is
installed, `dirty` is false and the cache is empty. -/
theorem compile_success_installs_base_and_clears_cache_witness :
    sStale.compiled ≠ [] ∧ (Compile okEngine sStale).2 = none ∧
    ((Compile okEngine sStale).1.dirty = false ∧
      (Compile okEngine sStale).1.compiled = [] ∧
      ∃ h, compileResult okEngine sStale = .ok h ∧
        (Compile okEngine sStale).1.t = some h ∧
        (Compile okEngine sStale).1 =
          { sStale with t := some h, dirty := false, compiled := [] }) :=
  ⟨by decide, by decide,
    compile_success_installs_base_and_clears_cache okEngine sStale
      (Compile okEngine sStale).1 (by decide)⟩

/-- C2: `Blocks` and `Call` set the dirty flag, so the next `Execute` runs
`Compile` before rendering and renders the handle freshly built from the
current registrations — even if a previously compiled base existed
(`s.t` is arbitrary here, in particular it may hold an old handle). -/
theorem register_dirties_and_execute_recompiles (e : Engine H F) (mode : Mode)
    (s : Template H F) (gs : List String) (name : String) (f : F) (h : H)
    (hdirty : s.dirty = true) (hc : compileResult e s = .ok h) :
    (Blocks s gs).dirty = true ∧ (Call s name f).dirty = true ∧
    Execute e mode s [] =
      ({ s with t := some h, dirty := false, compiled := [] },
        renderResult (e.render h)) := by
  refine ⟨rfl, rfl, ?_⟩
  simp [Execute, Compile, hc, hdirty]

/-- Witness for C2 at a concrete input: after `Parse("b").Call("f", valid)`
the manager is dirty, and `Execute` compiles (producing handle 11) and
renders that fresh handle. -/
theorem register_dirties_and_execute_recompiles_witness :
    (sCallF.dirty = true ∧ compileResult okEngine sCallF = .ok 11) ∧
    ((Blocks sCallF ["g"]).dirty = true ∧ (Call sCallF "n" true).dirty = true ∧
      Execute okEngine Production sCallF [] =
        ({ sCallF with t := some 11, dirty := false, compiled := [] },
          renderResult (okEngine.render 11))) :=
  ⟨⟨by decide, rfl⟩,
    register_dirties_and_execute_recompiles okEngine Production sCallF ["g"] "n" true 11
      (by decide) rfl⟩

/-- C4: when the function map makes the engine's `Funcs` panic, `Compile`
returns that panic message as a normal error (the recover converts the
fault), leaving the state unchanged rather than crashing; and after a
subsequent `Call` re-registering a callable so that compilation goes
through, `Compile` succeeds. -/
theorem invalid_func_compile_errors_then_valid_succeeds (e : Engine H F)
    (s : Template H F) (p : String) (t0 h : H) (name : String) (f : F)
    (hbase : e.parseFiles s.base = .ok t0)
    (hpanic : e.funcsPanic s.funcs = some p)
    (hok : compileResult e (Call s name f) = .ok h) :
    Compile e s = (s, some p) ∧
    Compile e (Call s name f) =
      ({ Call s name f with t := some h, dirty := false, compiled := [] }, none) := by
  constructor
  · unfold Compile compileResult
    rw [hbase, hpanic]
  · unfold Compile
    rw [hok]

/-- Witness for C4 at a concrete input: registering the invalid callable
`false` makes `Compile` return the recovered panic message; re-registering
the name with the valid callable `true` makes `Compile` succeed. -/
theorem invalid_func_compile_errors_then_valid_succeeds_witness :
    (okEngine.parseFiles sCallBad.base = .ok 1 ∧
      okEngine.funcsPanic sCallBad.funcs = some "reflect: bad function signature" ∧
      compileResult okEngine (Call sCallBad "f" true) = .ok 11) ∧
    (Compile okEngine sCallBad = (sCallBad, some "reflect: bad function signature") ∧
      Compile okEngine (Call sCallBad "f" true) =
        ({ Call sCallBad "f" true with t := some 11, dirty := false, compiled := [] },
          none)) :=
  ⟨⟨rfl, by decide, rfl⟩,
    invalid_func_compile_errors_then_valid_succeeds okEngine sCallBad
      "reflect: bad function signature" 1 11 "f" true rfl (by decide) rfl⟩

/-- The two mode constants are distinct booleans. -/
theorem production_ne_development : (Production = Development) = False := by
  simp [Production, Development]

/-- A failed per-call composition leaves the manager unchanged: the error
branch of `freshCompose` returns before the store, discarding the clone. -/
theorem freshCompose_err_state (e : Engine H F) (s s' : Template H F)
    (globs : List String) (key msg : String)
    (hfail : freshCompose e s globs key = (s', .err msg)) : s' = s := by
  unfold freshCompose at hfail
  repeat' split at hfail
  all_goals simp at hfail
  all_goals exact hfail.1.symm

/-- A `getCachedGlobs` call that returns an error leaves the manager
unchanged. -/
theorem getCachedGlobs_err_state (e : Engine H F) (mode : Mode) (s s' : Template H F)
    (globs : List String) (msg : String)
    (hfail : getCachedGlobs e mode s globs = (s', .err msg)) : s' = s := by
  unfold getCachedGlobs at hfail
  split at hfail
  · split at hfail
    · simp at hfail
    · exact freshCompose_err_state e s s' globs _ msg hfail
  · exact freshCompose_err_state e s s' globs _ msg hfail

/-- A successful fresh composition stores the freshly built clone in the
per-call cache under the computed key. -/
theorem freshCompose_ok_stores (e : Engine H F) (s s2 : Template H F)
    (globs : List String) (key : String) (hN : H)
    (hok : freshCompose e s globs key = (s2, .ok (some hN))) :
    s2.compiled = insertCache s.compiled key (some hN) := by
  unfold freshCompose at hok
  repeat' split at hok
  all_goals simp at hok
  all_goals obtain ⟨h1, h2⟩ := hok
  all_goals subst h2
  all_goals rw [← h1]

/-- The binding just stored into the cache is the one looked up. -/
theorem lookupCache_insert_self (c : List (String × Option H)) (k : String) (v : Option H) :
    lookupCache (insertCache c k v) k = some v := by
  unfold lookupCache insertCache
  rw [List.find?_cons_of_pos _ (by simp)]

/-- C7: if the per-call composition fails (a glob fails to match or
parse), the failed clone is discarded: for every manager state and mode
the composition leaves the manager — its compiled base and its per-call
cache — unchanged, nothing is stored under the cache key, and `Execute`
(here on a clean Production-mode manager, where no recompile precedes the
composition) returns the error without rendering. -/
theorem per_call_compose_failure_preserves_state (e : Engine H F) (mode : Mode)
    (s s' : Template H F) (g : String) (gs : List String) (msg : String)
    (hfail : getCachedGlobs e mode s (g :: gs) = (s', .err msg)) :
    s' = s ∧ (s.dirty = false → mode = Production →
      Execute e mode s (g :: gs) = (s, .err msg)) := by
  have hs := getCachedGlobs_err_state e mode s s' (g :: gs) msg hfail
  subst hs
  refine ⟨rfl, fun hdirty hmode => ?_⟩
  subst hmode
  simp [Execute, hdirty, production_ne_development, hfail]

/-- Witness for C7 at a concrete input: on a clean manager with a cached
entry, a per-call glob that fails to parse makes `Execute` return the error
and leaves the state (base and cache) exactly as it was. -/
theorem per_call_compose_failure_preserves_state_witness :
    getCachedGlobs okEngine Production sCached ["bad/*"] =
      (sCached, .err "pattern matches no files") ∧
    (sCached = sCached ∧
      (sCached.dirty = false → Production = Production →
        Execute okEngine Production sCached ["bad/*"] =
          (sCached, .err "pattern matches no files"))) :=
  ⟨by decide,
    per_call_compose_failure_preserves_state okEngine Production sCached sCached "bad/*" []
      "pattern matches no files" (by decide)⟩

/-- C8: a cached per-call entry is read back (reused) only in Production
mode; in Development mode the cache hit is ignored and `getCachedGlobs`
behaves exactly as the fresh composition path; and a successful fresh
composition — run in either mode — stores the freshly built clone into the
cache under the key. -/
theorem cache_read_back_only_in_production (e : Engine H F) (s s2 : Template H F)
    (globs : List String) (v : Option H) (hN : H)
    (hhit : lookupCache s.compiled (joinComma globs) = some v)
    (hok : freshCompose e s globs (joinComma globs) = (s2, .ok (some hN))) :
    getCachedGlobs e Production s globs = (s, .ok v) ∧
    getCachedGlobs e Development s globs = freshCompose e s globs (joinComma globs) ∧
    lookupCache s2.compiled (joinComma globs) = some (some hN) := by
  refine ⟨?_, ?_, ?_⟩
  · simp [getCachedGlobs, hhit, Production]
  · simp [getCachedGlobs, hhit, Production, Development]
  · rw [freshCompose_ok_stores e s s2 globs _ hN hok]
    exact lookupCache_insert_self ..

/-- Witness for C8 at a concrete input: with an entry cached under "a,b",
the Production call returns it unchanged, the Development call rebuilds
fresh, and the fresh build (handle 404) is stored into the cache. -/
theorem cache_read_back_only_in_production_witness :
    (lookupCache sCached.compiled (joinComma ["a", "b"]) = some (some 42) ∧
      freshCompose okEngine sCached ["a", "b"] (joinComma ["a", "b"]) =
        (sFresh, .ok (some 404))) ∧
    (getCachedGlobs okEngine Production sCached ["a", "b"] = (sCached, .ok (some 42)) ∧
      getCachedGlobs okEngine Development sCached ["a", "b"] =
        freshCompose okEngine sCached ["a", "b"] (joinComma ["a", "b"]) ∧
      lookupCache sFresh.compiled (joinComma ["a", "b"]) = some (some 404)) :=
  ⟨⟨by decide, by decide⟩,
    cache_read_back_only_in_production okEngine sCached sFresh ["a", "b"] (some 42) 404
      (by decide) (by decide)⟩

/-- C10: on a cache miss the error of `t.t.Clone()` is discarded
(`tmpl, _ = t.t.Clone()`), so when the clone fails the block-glob loop is
invoked on the absent (nil) handle: the outcome delivered to the caller is
exactly that of composing from scratch through the nil-safe `ParseGlob` —
a fresh template built only from the glob files (stored in the cache and
returned as if nothing failed) or the glob parse's own error — and the
clone failure itself is never returned to the `Execute` caller. -/
theorem clone_error_ignored_parse_runs_on_nil (e : Engine H F) (mode : Mode)
    (s : Template H F) (h : H) (ce : String) (g : String) (gs : List String)
    (hbase : s.t = some h) (hclone : e.clone h = .error ce)
    (hmiss : lookupCache s.compiled (joinComma (g :: gs)) = none) :
    getCachedGlobs e mode s (g :: gs) =
      (match parseGlobListOpt e none (g :: gs) with
       | .error msg => (s, .err msg)
       | .ok h? =>
         ({ s with compiled := insertCache s.compiled (joinComma (g :: gs)) h? },
           .ok h?)) := by
  simp [getCachedGlobs, hmiss, freshCompose, hbase, hclone]

/-- Witness for C10 at a concrete input: an engine whose `Clone` fails; the
per-call path composes from the nil handle (here the nil-receiver glob
parse succeeds, so the caller receives a fresh base-less handle and never
sees the clone error). -/
theorem clone_error_ignored_parse_runs_on_nil_witness :
    (sCached.t = some 1 ∧
      badCloneEngine.clone 1 = .error "cannot Clone after it has executed" ∧
      lookupCache sCached.compiled (joinComma ["g/*"]) = none) ∧
    getCachedGlobs badCloneEngine Production sCached ["g/*"] =
      (match parseGlobListOpt badCloneEngine none ["g/*"] with
       | .error msg => (sCached, .err msg)
       | .ok h? =>
         ({ sCached with compiled := insertCache sCached.compiled (joinComma ["g/*"]) h? },
           .ok h?)) :=
  ⟨⟨by decide, rfl, by decide⟩,
    clone_error_ignored_parse_runs_on_nil badCloneEngine Production sCached 1
      "cannot Clone after it has executed" "g/*" [] (by decide) rfl (by decide)⟩

/-- `joinComma` computes, character-wise, `joinCommaL` of the data of its
elements. -/
theorem joinComma_data : ∀ l : List String,
    (joinComma l).data = joinCommaL (l.map String.data)
  | [] => rfl
  | [g] => rfl
  | g :: g2 :: gs => by
    show ((g ++ "," ++ joinComma (g2 :: gs))).data = _
    rw [String.data_append, String.data_append, joinComma_data (g2 :: gs)]
    simp [joinCommaL]

/-- The part of a comma-separated concatenation before the first comma
determines the head: two comma-free segments followed by a comma agree. -/
theorem append_comma_cons_inj : ∀ (a b x y : List Char), ',' ∉ a → ',' ∉ b →
    a ++ ',' :: x = b ++ ',' :: y → a = b ∧ x = y
  | [], [], _, _, _, _, h => ⟨rfl, by injection h⟩
  | [], c :: b', _, _, _, hb, h => by
    injection h with h1 _
    exact absurd (h1 ▸ List.mem_cons_self c b') hb
  | c :: a', [], _, _, ha, _, h => by
    injection h with h1 _
    exact absurd (h1 ▸ List.mem_cons_self c a') ha
  | c :: a', d :: b', x, y, ha, hb, h => by
    injection h with h1 h2
    obtain ⟨he, hx⟩ := append_comma_cons_inj a' b' x y
      (fun hm => ha (List.mem_cons_of_mem c hm))
      (fun hm => hb (List.mem_cons_of_mem d hm)) h2
    exact ⟨by rw [h1, he], hx⟩

/-- The separator occurs in any joined tail. -/
theorem comma_mem_append (b rest : List Char) : ',' ∈ b ++ ',' :: rest :=
  List.mem_append.mpr (Or.inr (List.mem_cons_self ',' rest))

/-- `joinCommaL` is injective on non-empty lists of comma-free segments. -/
theorem joinCommaL_inj : ∀ (l1 l2 : List (List Char)),
    (∀ g ∈ l1, ',' ∉ g) → (∀ g ∈ l2, ',' ∉ g) → l1 ≠ [] → l2 ≠ [] →
    joinCommaL l1 = joinCommaL l2 → l1 = l2
  | [], _, _, _, hne1, _, _ => absurd rfl hne1
  | _ :: _, [], _, _, _, hne2, _ => absurd rfl hne2
  | [a], [b], _, _, _, _, h => by rw [show a = b from h]
  | [a], b :: b2 :: l2, h1, _, _, _, h => by
    have h' : a = b ++ ',' :: joinCommaL (b2 :: l2) := h
    have hm : ',' ∈ a := by rw [h']; exact comma_mem_append b (joinCommaL (b2 :: l2))
    exact absurd hm (h1 a (List.mem_cons_self a []))
  | a :: a2 :: l1, [b], _, h2, _, _, h => by
    have h' : a ++ ',' :: joinCommaL (a2 :: l1) = b := h
    have hm : ',' ∈ b := by rw [← h']; exact comma_mem_append a (joinCommaL (a2 :: l1))
    exact absurd hm (h2 b (List.mem_cons_self b []))
  | a :: a2 :: l1, b :: b2 :: l2, h1, h2, _, _, h => by
    obtain ⟨hab, ht⟩ := append_comma_cons_inj a b (joinCommaL (a2 :: l1))
      (joinCommaL (b2 :: l2)) (h1 a (List.mem_cons_self a _)) (h2 b (List.mem_cons_self b _)) h
    have htl := joinCommaL_inj (a2 :: l1) (b2 :: l2)
      (fun g hg => h1 g (List.mem_cons_of_mem a hg))
      (fun g hg => h2 g (List.mem_cons_of_mem b hg))
      (List.cons_ne_nil a2 l1) (List.cons_ne_nil b2 l2) ht
    rw [hab, htl]

/-- C6 counterexample: the claim quantifies over every pair of glob lists
that differ in order, but `strings.Join` with "," is not injective on such
pairs: the reordered lists ["a","a,a"] and ["a,a","a"] — a transposition of
the same two globs — produce the same key "a,a,a", so the second call is
served by the first call's cache entry rather than a distinct one. -/
theorem joinComma_reorder_collision :
    (["a", "a,a"] : List String).Perm ["a,a", "a"] ∧
    (["a", "a,a"] : List String) ≠ ["a,a", "a"] ∧
    joinComma ["a", "a,a"] = joinComma ["a,a", "a"] ∧
    lookupCache (insertCache ([] : List (String × Option Nat)) (joinComma ["a", "a,a"]) (some 1))
        (joinComma ["a,a", "a"]) = some (some 1) :=
  ⟨by decide, by decide, rfl, by decide⟩

/-- C6 amended: for glob lists whose patterns do not contain the separator
character ',', distinct non-empty lists — in particular lists that differ
only in order — always get distinct cache keys, and an entry stored under
one list's key is invisible to a lookup with the other list's key (they are
distinct cache entries). -/
theorem joinComma_separates_comma_free_lists (l1 l2 : List String)
    (h1 : ∀ g ∈ l1, ',' ∉ g.data) (h2 : ∀ g ∈ l2, ',' ∉ g.data)
    (hne1 : l1 ≠ []) (hne2 : l2 ≠ []) (hne : l1 ≠ l2) :
    joinComma l1 ≠ joinComma l2 ∧
    ∀ (c : List (String × Option H)) (v : Option H),
      lookupCache (insertCache c (joinComma l1) v) (joinComma l2) =
        lookupCache c (joinComma l2) := by
  have hkey : joinComma l1 ≠ joinComma l2 := by
    intro heq
    apply hne
    have hd : joinCommaL (l1.map String.data) = joinCommaL (l2.map String.data) := by
      rw [← joinComma_data, ← joinComma_data, heq]
    have hmaps := joinCommaL_inj (l1.map String.data) (l2.map String.data)
      (by intro g hg
          obtain ⟨t, ht, rfl⟩ := List.mem_map.mp hg
          exact h1 t ht)
      (by intro g hg
          obtain ⟨t, ht, rfl⟩ := List.mem_map.mp hg
          exact h2 t ht)
      (by simpa using hne1) (by simpa using hne2) hd
    exact List.map_injective_iff.mpr (fun a b hab => String.ext hab) hmaps
  refine ⟨hkey, ?_⟩
  intro c v
  unfold lookupCache insertCache
  rw [List.find?_cons_of_neg _ (by simpa using hkey)]

/-- Witness for C6 (amended) at the concrete lists of the claim:
["a/*.tmpl","b/*.tmpl"] and ["b/*.tmpl","a/*.tmpl"] are comma-free,
non-empty and distinct, their keys differ, and a cache entry stored under
the first key is not consulted by a lookup with the second. -/
theorem joinComma_separates_comma_free_lists_witness :
    ((∀ g ∈ (["a/*.tmpl", "b/*.tmpl"] : List String), ',' ∉ g.data) ∧
      (∀ g ∈ (["b/*.tmpl", "a/*.tmpl"] : List String), ',' ∉ g.data) ∧
      (["a/*.tmpl", "b/*.tmpl"] : List String) ≠ [] ∧
      (["b/*.tmpl", "a/*.tmpl"] : List String) ≠ [] ∧
      (["a/*.tmpl", "b/*.tmpl"] : List String) ≠ ["b/*.tmpl", "a/*.tmpl"]) ∧
    (joinComma ["a/*.tmpl", "b/*.tmpl"] ≠ joinComma ["b/*.tmpl", "a/*.tmpl"] ∧
      ∀ (c : List (String × Option Nat)) (v : Option Nat),
        lookupCache (insertCache c (joinComma ["a/*.tmpl", "b/*.tmpl"]) v)
            (joinComma ["b/*.tmpl", "a/*.tmpl"]) =
          lookupCache c (joinComma ["b/*.tmpl", "a/*.tmpl"])) :=
  ⟨⟨by decide, by decide, by decide, by decide, by decide⟩,
    joinComma_separates_comma_free_lists ["a/*.tmpl", "b/*.tmpl"] ["b/*.tmpl", "a/*.tmpl"]
      (by decide) (by decide) (by decide) (by decide) (by decide)⟩

/-- C9: the cache key derivation is not injective: the one-element list
["a,b"] and the two-element list ["a","b"] both yield the key "a,b", so in
Production mode a per-call `Execute` with one of these lists is served the
cached composition that was stored for the other. -/
theorem cache_key_collision_serves_other_entry :
    joinComma ["a,b"] = joinComma ["a", "b"] ∧
    (["a,b"] : List String) ≠ ["a", "b"] ∧
    getCachedGlobs okEngine Production sCached ["a", "b"] = (sCached, .ok (some 42)) :=
  ⟨rfl, by decide, by decide⟩

end Tmplmgr
